import Mathlib

/-!
Shallow embedding of the telegram_analyzer sync engine
(`telegram_functionality/services.py`, `views.py`, `models.py`).

Conventions:
* Timestamps (`timezone.now()`) are `Nat` parameters passed explicitly.
* Django rows are Lean structures; a per-chat message table is an
  association list `List (Nat × TelegramMessage)` keyed by `message_id`
  (the `unique_together ["chat", "message_id"]` constraint of
  `TelegramMessage.Meta` corresponds to key-uniqueness of that list).
* Nullable columns are `Option`; Python truthiness of a nullable text
  column is `strTruthy`.
* Remote (Telethon) calls are modelled by their documented behaviour,
  with failures (`except Exception`) as `Option`/`Except` results.
-/

/-- Python truthiness of an optional string column
(`None` and the empty string are falsy). -/
def strTruthy : Option String → Bool
  | none => false
  | some s => !(s == "")

/-! ## Message rows and incoming message data -/

/-- The `msg_data` dict built by
`TelegramClientManager.fetch_all_messages_from_chat` (services.py 652-672):
one fetched remote message, including the optional media-download fields. -/
structure MsgData where
  id : Nat
  text : String
  date : Nat
  sender_id : Option Int
  sender_name : String
  is_outgoing : Bool
  has_media : Bool
  media_type : Option String
  reply_to_msg_id : Option Nat
  forwards : Option Nat
  views : Option Nat
  media_file_path : Option String
  media_file_name : Option String
  media_file_size : Option Nat
  media_mime_type : Option String
  media_width : Option Nat
  media_height : Option Nat
  media_duration : Option Nat
deriving DecidableEq, Repr

/-- A `TelegramMessage` database row (models.py 201-242), minus the
`chat` foreign key (the store is already per-chat). -/
structure TelegramMessage where
  text : String
  date : Nat
  sender_id : Option Int
  sender_name : String
  is_outgoing : Bool
  has_media : Bool
  media_type : Option String
  reply_to_msg_id : Option Nat
  forwards : Option Nat
  views : Option Nat
  media_file : Option String
  media_file_name : Option String
  media_file_size : Option Nat
  media_mime_type : Option String
  media_width : Option Nat
  media_height : Option Nat
  media_duration : Option Nat
  is_deleted : Bool
  deleted_at : Option Nat
  first_seen_at : Nat
  last_seen_at : Nat
deriving DecidableEq, Repr

/-- The per-chat message table: rows keyed by `message_id`. -/
abbrev MessageStore := List (Nat × TelegramMessage)

/-- Look up the row for a message id (Django `.get`/`get_or_create` lookup
by the `(chat, message_id)` key). -/
def findMsg (store : MessageStore) (mid : Nat) : Option TelegramMessage :=
  (store.find? (fun p => p.1 == mid)).map (·.2)

/-! ## Sync task (models.py 114-190) -/

inductive TaskStatus where
  | pending
  | running
  | completed
  | failed
  | cancelled
deriving DecidableEq, Repr

/-- A `SyncTask` row. Counters are `Int` to match Django `IntegerField`.
The append-only log is a list of lines (timestamps and counts elided). -/
structure SyncTask where
  status : TaskStatus
  total_chats : Int
  synced_chats : Int
  total_messages : Int
  synced_messages : Int
  new_messages : Int
  current_chat_id : Option Int
  current_chat_title : String
  current_chat_progress : Int
  started_at : Option Nat
  completed_at : Option Nat
  error_message : String
  log : List String
deriving DecidableEq, Repr

/-- `SyncTask.progress_percent` (models.py 177-182).
Python computes `int((synced_chats / total_chats) * 100)`; the
float-division-then-truncate is modelled as exact integer division,
which agrees with it on the guard and on the 0..100 range for
`0 ≤ synced_chats ≤ total_chats`. -/
def SyncTask.progress_percent (t : SyncTask) : Int :=
  if t.total_chats = 0 then 0
  else t.synced_chats * 100 / t.total_chats

def SyncTask.is_running (t : SyncTask) : Bool :=
  t.status == .running

def SyncTask.is_finished (t : SyncTask) : Bool :=
  t.status == .completed || t.status == .failed || t.status == .cancelled

/-- `SyncTask.add_log` (models.py 170-175): append one line. -/
def SyncTask.add_log (t : SyncTask) (line : String) : SyncTask :=
  { t with log := t.log ++ [line] }

/-! ## Encrypted session string (models.py 57-75) -/

/-- Interface of the external `cryptography.fernet.Fernet` collaborator
under one fixed key, with its documented contract: encryption produces a
non-empty token and decryption inverts encryption under the same key.
(The key itself is derived once from the application secret in
`_get_encryption_key` and used identically by both directions.) -/
structure FernetBox where
  encrypt : String → String
  decrypt : String → Option String
  encrypt_ne_empty : ∀ s, encrypt s ≠ ""
  decrypt_encrypt : ∀ s, decrypt (encrypt s) = some s

/-- The `session_string` column of `TelegramSession` (nullable text). -/
structure TelegramSession where
  session_string : Option String
deriving DecidableEq

/-- `TelegramSession.set_session_string` (models.py 62-67): encrypt and
store, guarded by Python truthiness of the argument. -/
def TelegramSession.set_session_string (f : FernetBox) (sess : TelegramSession)
    (s : String) : TelegramSession :=
  if s ≠ "" then { sess with session_string := some (f.encrypt s) }
  else sess

/-- `TelegramSession.get_session_string` (models.py 69-75): decrypt the
stored field if truthy, else return `None`. -/
def TelegramSession.get_session_string (f : FernetBox) (sess : TelegramSession) :
    Option String :=
  match sess.session_string with
  | none => none
  | some stored => if stored = "" then none else f.decrypt stored

/-! ## Deletion reconciler (views.py 783-830, `check_deleted_messages`) -/

/-- Mark one row deleted (views.py 817-818):
`msg.is_deleted = True; msg.deleted_at = timezone.now()`. -/
def markDeleted (now : Nat) (m : TelegramMessage) : TelegramMessage :=
  { m with is_deleted := true, deleted_at := some now }

/-- One iteration of the per-chat loop of `check_deleted_messages`
(views.py 798-820): given the remote id-listing result for this chat
(`none` = `get_message_ids_from_chat` failed), flag every not-yet-deleted
local row whose id is absent from the remote set; on failure `continue`
without touching the store. Returns the updated store and the number of
rows flagged in this chat. -/
def check_deleted_chat (now : Nat) (remote : Option (List Nat))
    (store : MessageStore) : MessageStore × Nat :=
  match remote with
  | none => (store, 0)
  | some telegram_ids =>
    (store.map (fun p =>
        if p.2.is_deleted = false ∧ p.1 ∉ telegram_ids
        then (p.1, markDeleted now p.2) else p),
     (store.filter (fun p =>
        decide (p.2.is_deleted = false ∧ p.1 ∉ telegram_ids))).length)

/-- The whole deletion check (views.py 798-820): every selected chat is
reconciled independently against its own remote listing result. -/
def check_deleted_messages (now : Nat)
    (chats : List (Option (List Nat) × MessageStore)) :
    List (MessageStore × Nat) :=
  chats.map (fun c => check_deleted_chat now c.1 c.2)

/-! ## Remote message paging
(`TelegramClientManager.fetch_all_messages_from_chat`, services.py 603-706)

`client.get_messages(entity, limit, offset_id, min_id)` is the external
Telethon collaborator; per its documented behaviour it returns up to
`limit` messages newest-first (descending id), restricted to ids strictly
below `offset_id` (no bound when `offset_id = 0`) and strictly above
`min_id`. The remote chat is modelled as its full message history, an
arbitrary `List MsgData`. -/

/-- Newest-first comparison on fetched messages: `a` sorts before `b`. -/
def msgGe (a b : MsgData) : Prop := b.id ≤ a.id

instance : DecidableRel msgGe := fun a b => Nat.decLe b.id a.id

instance : IsTotal MsgData msgGe := ⟨fun a b => Nat.le_total b.id a.id⟩

instance : IsTrans MsgData msgGe := ⟨fun _ _ _ h1 h2 => Nat.le_trans h2 h1⟩

/-- One `client.get_messages` page (Telethon collaborator model). -/
def get_messages (history : List MsgData) (limit offset_id min_id : Nat) :
    List MsgData :=
  ((history.filter (fun d =>
      (offset_id == 0 || decide (d.id < offset_id)) && decide (min_id < d.id))).insertionSort
    msgGe).take limit

/-- The paging loop of `fetch_all_messages_from_chat` (services.py
629-694): page with `batch_size = 100`, stop on an empty page, otherwise
append the page, move `offset_id` to the last (oldest) message of the
page, and stop when a page is short. `fuel` bounds the recursion. -/
def fetchPages (history : List MsgData) (min_id : Nat) :
    Nat → Nat → List MsgData
  | _, 0 => []
  | offset_id, fuel + 1 =>
    let msgs := get_messages history 100 offset_id min_id
    match msgs.getLast? with
    | none => []
    | some lastMsg =>
      if msgs.length < 100 then msgs
      else msgs ++ fetchPages history min_id lastMsg.id fuel

/-- `fetch_all_messages_from_chat` on a successfully connected chat:
run the paging loop from `offset_id = 0`. -/
def fetch_all_messages_from_chat (history : List MsgData) (min_id : Nat) :
    List MsgData :=
  fetchPages history min_id 0 (history.length + 1)

/-! ## Conversation ledger (models.py 78-111, services.py 832-854) -/

/-- A `TelegramChat` row, minus the session foreign key. -/
structure TelegramChat where
  chat_type : String
  title : String
  username : Option String
  members_count : Option Int
  is_archived : Bool
  is_pinned : Bool
  last_message_id : Option Nat
  last_full_sync : Option Nat
  total_messages : Nat
deriving DecidableEq, Repr

/-- One element of the `chats` list returned by `get_all_chats`
(services.py 512-522), together with the outcome of this pass's
`fetch_all_messages_from_chat` remote call for that chat:
`remote = none` models the call failing (`success: False`),
`remote = some history` models a reachable chat with that full history. -/
structure ChatData where
  id : Int
  title : String
  chat_type : String
  username : Option String
  members_count : Option Int
  is_archived : Bool
  is_pinned : Bool
  remote : Option (List MsgData)
deriving DecidableEq, Repr

def findChat (chats : List (Int × TelegramChat)) (cid : Int) :
    Option TelegramChat :=
  (chats.find? (fun p => p.1 == cid)).map (·.2)

def updateChat (chats : List (Int × TelegramChat)) (cid : Int)
    (f : TelegramChat → TelegramChat) : List (Int × TelegramChat) :=
  chats.map (fun p => if p.1 == cid then (p.1, f p.2) else p)

/-- `TelegramChat.objects.get_or_create` plus the display-field refresh
(services.py 833-854): create with remote metadata if absent, otherwise
update title/type/username/members/archived/pinned in place, leaving
`last_message_id` untouched. Returns the new ledger and the row. -/
def getOrCreateChat (chats : List (Int × TelegramChat)) (c : ChatData) :
    List (Int × TelegramChat) × TelegramChat :=
  match findChat chats c.id with
  | some tc =>
    let tc' := { tc with
      title := c.title, chat_type := c.chat_type, username := c.username,
      members_count := c.members_count, is_archived := c.is_archived,
      is_pinned := c.is_pinned }
    (updateChat chats c.id (fun _ => tc'), tc')
  | none =>
    let tc : TelegramChat := {
      chat_type := c.chat_type, title := c.title, username := c.username,
      members_count := c.members_count, is_archived := c.is_archived,
      is_pinned := c.is_pinned, last_message_id := none,
      last_full_sync := none, total_messages := 0 }
    (chats ++ [(c.id, tc)], tc)

/-! ## Message upsert paths -/

/-- The `defaults` row built on first sight by the background sync's
`get_or_create` (services.py 873-896). -/
def createRow (now : Nat) (d : MsgData) : TelegramMessage where
  text := d.text
  date := d.date
  sender_id := d.sender_id
  sender_name := d.sender_name
  is_outgoing := d.is_outgoing
  has_media := d.has_media
  media_type := d.media_type
  reply_to_msg_id := d.reply_to_msg_id
  forwards := d.forwards
  views := d.views
  media_file := d.media_file_path
  media_file_name := d.media_file_name
  media_file_size := d.media_file_size
  media_mime_type := d.media_mime_type
  media_width := d.media_width
  media_height := d.media_height
  media_duration := d.media_duration
  is_deleted := false
  deleted_at := none
  first_seen_at := now
  last_seen_at := now

/-- The media backfill of an existing row (services.py 901-910); the
`save()` fires `auto_now` on `last_seen_at`. -/
def backfillMedia (now : Nat) (d : MsgData) (m : TelegramMessage) :
    TelegramMessage :=
  { m with
    media_file := d.media_file_path
    media_file_name := d.media_file_name
    media_file_size := d.media_file_size
    media_mime_type := d.media_mime_type
    media_width := d.media_width
    media_height := d.media_height
    media_duration := d.media_duration
    last_seen_at := now }

/-- One message of the background sync's upsert loop (services.py
872-911): `get_or_create` keyed by `(chat, message_id)`; on an existing
row, only the media backfill when the incoming data has a downloaded
file and the row has none. Returns `(store, msg_created, media_counted)`. -/
def syncUpsert (now : Nat) (store : MessageStore) (d : MsgData) :
    MessageStore × Bool × Bool :=
  match findMsg store d.id with
  | none => (store ++ [(d.id, createRow now d)], true, strTruthy d.media_file_path)
  | some m =>
    if strTruthy d.media_file_path && !(strTruthy m.media_file) then
      (store.map (fun p => if p.1 == d.id then (p.1, backfillMedia now d p.2) else p),
       false, true)
    else (store, false, false)

/-- The whole per-chat message loop (services.py 872-911):
fold `syncUpsert` over the fetched page, accumulating
`new_count` and `media_count`. -/
def applyMessages (now : Nat) (store : MessageStore) (msgs : List MsgData) :
    MessageStore × Nat × Nat :=
  msgs.foldl
    (fun acc d =>
      let r := syncUpsert now acc.1 d
      (r.1, acc.2.1 + (if r.2.1 then 1 else 0), acc.2.2 + (if r.2.2 then 1 else 0)))
    (store, 0, 0)

/-- The row created by the single-chat view's `update_or_create`
(views.py 749-764): its `defaults` dict carries no media columns, so a
fresh row takes model defaults for them. -/
def createRowView (now : Nat) (d : MsgData) : TelegramMessage where
  text := d.text
  date := d.date
  sender_id := d.sender_id
  sender_name := d.sender_name
  is_outgoing := d.is_outgoing
  has_media := d.has_media
  media_type := d.media_type
  reply_to_msg_id := d.reply_to_msg_id
  forwards := d.forwards
  views := d.views
  media_file := none
  media_file_name := none
  media_file_size := none
  media_mime_type := none
  media_width := none
  media_height := none
  media_duration := none
  is_deleted := false
  deleted_at := none
  first_seen_at := now
  last_seen_at := now

/-- `TelegramMessage.objects.update_or_create` as called by the
single-chat sync view `sync_chat_messages` (views.py 748-765): an
existing row has every field of the `defaults` dict overwritten
(including `text`), and `save()` advances `last_seen_at`. -/
def update_or_create_message (now : Nat) (store : MessageStore) (d : MsgData) :
    MessageStore :=
  match findMsg store d.id with
  | none => store ++ [(d.id, createRowView now d)]
  | some _ =>
    store.map (fun p =>
      if p.1 == d.id then
        (p.1, { p.2 with
          text := d.text, date := d.date, sender_id := d.sender_id,
          sender_name := d.sender_name, is_outgoing := d.is_outgoing,
          has_media := d.has_media, media_type := d.media_type,
          reply_to_msg_id := d.reply_to_msg_id, forwards := d.forwards,
          views := d.views, last_seen_at := now })
      else p)

/-! ## The background sync worker (services.py 760-956) -/

/-- The engine's durable state: the task row, the conversation ledger,
and the per-chat message tables (keyed by chat id). -/
structure SyncState where
  task : SyncTask
  chats : List (Int × TelegramChat)
  stores : List (Int × MessageStore)
deriving DecidableEq, Repr

/-- The message table of one chat (`telegram_chat.messages`); a chat with
no rows yet has the empty table. -/
def findStoreD (stores : List (Int × MessageStore)) (cid : Int) : MessageStore :=
  ((stores.find? (fun p => p.1 == cid)).map (·.2)).getD []

def setStore (stores : List (Int × MessageStore)) (cid : Int)
    (s : MessageStore) : List (Int × MessageStore) :=
  match stores.find? (fun p => p.1 == cid) with
  | some _ => stores.map (fun p => if p.1 == cid then (p.1, s) else p)
  | none => stores ++ [(cid, s)]

/-- Python `max(m['id'] for m in messages)` over a non-empty list
(services.py 915); the `0` seed is absorbed because ids are `Nat`. -/
def maxIdOf (msgs : List MsgData) : Nat :=
  msgs.foldl (fun a m => max a m.id) 0

/-- The body of one conversation-loop iteration (services.py 821-935),
everything after the cancellation check: record current-chat info,
upsert the ledger entry, seed `min_id` from the high-water mark, fetch,
upsert all fetched messages, advance ledger stats and task counters; on
a failed fetch only log and advance `synced_chats` (error isolated to
this conversation, services.py 928-935). -/
def syncOneChat (now : Nat) (st : SyncState) (c : ChatData) : SyncState :=
  let t0 := ({ st.task with
    current_chat_id := some c.id, current_chat_title := c.title,
    current_chat_progress := 0 }).add_log "Syncing chat"
  let r := getOrCreateChat st.chats c
  let min_id := r.2.last_message_id.getD 0
  match c.remote with
  | none =>
    { task := { t0.add_log "Error syncing chat" with
                  synced_chats := t0.synced_chats + 1 },
      chats := r.1, stores := st.stores }
  | some history =>
    let msgs := fetch_all_messages_from_chat history min_id
    let a := applyMessages now (findStoreD st.stores c.id) msgs
    let chats2 := updateChat r.1 c.id (fun tc =>
      let tc1 := if msgs.isEmpty then tc
                 else { tc with last_message_id := some (maxIdOf msgs) }
      { tc1 with total_messages := a.1.length, last_full_sync := some now })
    let t1 := ({ t0 with
      synced_messages := t0.synced_messages + (msgs.length : Int),
      new_messages := t0.new_messages + (a.2.1 : Int),
      total_messages := t0.total_messages + (msgs.length : Int)
      }).add_log "Fetched messages"
    { task := { t1 with synced_chats := t1.synced_chats + 1 },
      chats := chats2, stores := setStore st.stores c.id a.1 }

/-- The finishing writes after the conversation loop
(services.py 937-943). -/
def completeTask (now : Nat) (t : SyncTask) : SyncTask :=
  ({ t with status := .completed, completed_at := some now,
            current_chat_id := none, current_chat_title := "" }).add_log
    "Sync completed"

/-- The worker's reaction to observing a cancelled status at the top of
an iteration (services.py 813-819): log, stamp `completed_at`, return.
The status itself was already `cancelled` in the re-read row. -/
def cancelFinish (now : Nat) (st : SyncState) : SyncState :=
  { st with task :=
      { ({ st.task with status := .cancelled }).add_log
          "Sync cancelled by user" with completed_at := some now } }

/-- The conversation loop (services.py 811-935). `cancelObs i = true`
models `refresh_from_db` at the top of iteration `i` reading
`status = cancelled` from durable storage (an external write by the
cancellation endpoint); the loop then returns immediately, leaving all
earlier iterations committed. -/
def syncLoop (now : Nat) (cancelObs : Nat → Bool) :
    Nat → List ChatData → SyncState → SyncState
  | _, [], st => { st with task := completeTask now st.task }
  | i, c :: rest, st =>
    if cancelObs i then cancelFinish now st
    else syncLoop now cancelObs (i + 1) rest (syncOneChat now st c)

/-- The worker's startup writes (services.py 783-787):
`status = running`, `started_at = now`, log line — applied
unconditionally to whatever row the task lookup returned. -/
def markRunning (now : Nat) (t : SyncTask) : SyncTask :=
  ({ t with status := .running, started_at := some now }).add_log
    "Sync started"

/-- The top-level exception handler (services.py 946-956): re-fetch the
task and stamp it failed. -/
def failTask (now : Nat) (e : String) (t : SyncTask) : SyncTask :=
  ({ t with status := .failed, error_message := e,
            completed_at := some now }).add_log "Error"

/-- `run_background_sync` (services.py 760-956). `sessionRes` is the
outcome of `session.get_session_string()` (it runs before the `running`
transition and raises on an undecryptable token, landing in the
top-level handler); `get_all_chats` is the remote chat-listing call,
`.error` being its `success: False` outcome (services.py 795-802). -/
def run_background_sync (now : Nat) (sessionRes : Except String String)
    (get_all_chats : String → Except String (List ChatData))
    (cancelObs : Nat → Bool) (st : SyncState) : SyncState :=
  match sessionRes with
  | .error e => { st with task := failTask now e st.task }
  | .ok sstr =>
    let t1 := (markRunning now st.task).add_log
      "Fetching chat list from Telegram..."
    match get_all_chats sstr with
    | .error e =>
      { st with task :=
          { t1 with status := .failed, error_message := e,
                    completed_at := some now } }
    | .ok chats =>
      let t2 := ({ t1 with total_chats := (chats.length : Int) }).add_log
        "Found chats"
      syncLoop now cancelObs 0 chats { st with task := t2 }

/-- The cancellation endpoint `cancel_sync` (views.py 986-994): flips a
`pending`/`running` task to `cancelled` and stamps `completed_at`;
otherwise reports an error (`Bool` = the `success` flag of the JSON
response) and writes nothing. -/
def cancel_sync (now : Nat) (t : SyncTask) : SyncTask × Bool :=
  if t.status = .pending ∨ t.status = .running then
    (({ t with status := .cancelled, completed_at := some now }).add_log
       "Sync cancelled by user", true)
  else (t, false)

/-! ## Concrete sample data (used to instantiate the theorems) -/

/-- A remote message carrying only an id (all other fields default). -/
def mkMsgData (i : Nat) : MsgData where
  id := i
  text := ""
  date := 0
  sender_id := none
  sender_name := ""
  is_outgoing := false
  has_media := false
  media_type := none
  reply_to_msg_id := none
  forwards := none
  views := none
  media_file_path := none
  media_file_name := none
  media_file_size := none
  media_mime_type := none
  media_width := none
  media_height := none
  media_duration := none

/-- A stored row with a given text and no media. -/
def mkRow (txt : String) : TelegramMessage where
  text := txt
  date := 0
  sender_id := none
  sender_name := ""
  is_outgoing := false
  has_media := false
  media_type := none
  reply_to_msg_id := none
  forwards := none
  views := none
  media_file := none
  media_file_name := none
  media_file_size := none
  media_mime_type := none
  media_width := none
  media_height := none
  media_duration := none
  is_deleted := false
  deleted_at := none
  first_seen_at := 0
  last_seen_at := 0

/-- A freshly created task row (all model defaults, models.py 136-160). -/
def task0 : SyncTask where
  status := .pending
  total_chats := 0
  synced_chats := 0
  total_messages := 0
  synced_messages := 0
  new_messages := 0
  current_chat_id := none
  current_chat_title := ""
  current_chat_progress := 0
  started_at := none
  completed_at := none
  error_message := ""
  log := []

/-- A chat-listing entry whose message fetch yields `history`. -/
def mkChatData (cid : Int) (history : Option (List MsgData)) : ChatData where
  id := cid
  title := "chat"
  chat_type := "user"
  username := none
  members_count := none
  is_archived := false
  is_pinned := false
  remote := history

/-- The engine state at task creation: fresh task, empty ledger and store. -/
def state0 : SyncState where
  task := task0
  chats := []
  stores := []

/-- A toy instance of the external encryption collaborator's contract
(prepend a marker character; strip it to decrypt). -/
def demoFernet : FernetBox where
  encrypt s := String.mk ('x' :: s.data)
  decrypt t :=
    match t.data with
    | [] => none
    | _ :: rest => some (String.mk rest)
  encrypt_ne_empty s h := List.cons_ne_nil 'x' s.data (congrArg String.data h)
  decrypt_encrypt _ := rfl

/-- The ledger's stored high-water mark for a conversation, with the
code's reading of an absent or null value as 0
(`telegram_chat.last_message_id or 0`, services.py 857). -/
def ledger_hwm (st : SyncState) (cid : Int) : Nat :=
  ((findChat st.chats cid).map (fun c => c.last_message_id.getD 0)).getD 0

/-- The task row as it stands right after the worker's setup writes
(services.py 783-808): running, chat list fetched, `total_chats` set. -/
def setupTask (now : Nat) (t : SyncTask) (n : Nat) : SyncTask :=
  ({ (markRunning now t).add_log "Fetching chat list from Telegram..." with
      total_chats := (n : Int) }).add_log "Found chats"

/-! # Theorems -/

/-- C9: `SyncTask.progress_percent` is total: with `total_chats = 0` it
returns 0 without dividing, and for any task state with
`0 ≤ synced_chats ≤ total_chats` it returns an integer in `[0, 100]`. -/
theorem progress_percent_total (t : SyncTask)
    (h0 : 0 ≤ t.synced_chats) (h1 : t.synced_chats ≤ t.total_chats) :
    (t.total_chats = 0 → t.progress_percent = 0) ∧
    0 ≤ t.progress_percent ∧ t.progress_percent ≤ 100 := by
  refine ⟨fun h => by simp [SyncTask.progress_percent, h], ?_⟩
  by_cases hz : t.total_chats = 0
  · simp [SyncTask.progress_percent, hz]
  · have hbpos : 0 < t.total_chats :=
      lt_of_le_of_ne (le_trans h0 h1) (Ne.symm hz)
    constructor
    · simp only [SyncTask.progress_percent, if_neg hz]
      exact Int.ediv_nonneg (by positivity) (le_of_lt hbpos)
    · simp only [SyncTask.progress_percent, if_neg hz]
      calc t.synced_chats * 100 / t.total_chats
          ≤ 100 * t.total_chats / t.total_chats :=
            Int.ediv_le_ediv hbpos (by linarith)
        _ = 100 := Int.mul_ediv_cancel 100 hz

/-- Witness for C9 at `synced_chats = 1`, `total_chats = 3`. -/
theorem progress_percent_total_witness :
    ((0 : Int) ≤ ({ task0 with synced_chats := 1, total_chats := 3 } :
        SyncTask).synced_chats ∧
      ({ task0 with synced_chats := 1, total_chats := 3 } :
        SyncTask).synced_chats ≤
        ({ task0 with synced_chats := 1, total_chats := 3 } :
          SyncTask).total_chats) ∧
    ((({ task0 with synced_chats := 1, total_chats := 3 } :
        SyncTask).total_chats = 0 →
      ({ task0 with synced_chats := 1, total_chats := 3 } :
        SyncTask).progress_percent = 0) ∧
     0 ≤ ({ task0 with synced_chats := 1, total_chats := 3 } :
        SyncTask).progress_percent ∧
     ({ task0 with synced_chats := 1, total_chats := 3 } :
        SyncTask).progress_percent ≤ 100) :=
  ⟨⟨by decide, by decide⟩,
   progress_percent_total _ (by decide) (by decide)⟩

/-- C10: for every non-empty session string `s`, storing it with
`set_session_string` and reading it back with `get_session_string`
returns exactly `s` (encrypt-then-decrypt under the one derived key is
the identity), and `get_session_string` returns `none` when no session
string is stored. -/
theorem get_set_session_string_round_trip (f : FernetBox)
    (sess : TelegramSession) (s : String) (hs : s ≠ "") :
    (sess.set_session_string f s).get_session_string f = some s ∧
    (∀ s2 : TelegramSession, s2.session_string = none →
        s2.get_session_string f = none) := by
  constructor
  · simp only [TelegramSession.set_session_string, if_pos hs,
      TelegramSession.get_session_string]
    rw [if_neg (f.encrypt_ne_empty s)]
    exact f.decrypt_encrypt s
  · intro s2 h2
    simp [TelegramSession.get_session_string, h2]

/-- Witness for C10 with the toy encryption box and `s = "abc"`. -/
theorem get_set_session_string_round_trip_witness :
    ("abc" : String) ≠ "" ∧
    (((⟨none⟩ : TelegramSession).set_session_string demoFernet
        "abc").get_session_string demoFernet = some "abc" ∧
     (∀ s2 : TelegramSession, s2.session_string = none →
        s2.get_session_string demoFernet = none)) :=
  ⟨by decide,
   get_set_session_string_round_trip demoFernet ⟨none⟩ "abc" (by decide)⟩

/-- C8 fails as stated: the worker's startup step (services.py 783-787)
sets `status = running` unconditionally, so a task already in the
terminal state `cancelled` is mutated by it. -/
theorem markRunning_mutates_terminal_task :
    ({ task0 with status := .cancelled } : SyncTask).status = .cancelled ∧
    (markRunning 7 { task0 with status := .cancelled }).status = .running ∧
    markRunning 7 { task0 with status := .cancelled } ≠
      { task0 with status := .cancelled } := by
  decide

/-- C8 amended: the cancellation endpoint leaves a task already in a
terminal state (`completed`, `failed`, `cancelled`) entirely unchanged
and reports failure; the worker's set-running step carries no such
guard. -/
theorem cancel_sync_terminal_noop (now : Nat) (t : SyncTask)
    (h : t.status = .completed ∨ t.status = .failed ∨ t.status = .cancelled) :
    cancel_sync now t = (t, false) := by
  rcases h with h | h | h <;> simp [cancel_sync, h]

/-- Witness for the amended C8 at a concrete completed task. -/
theorem cancel_sync_terminal_noop_witness :
    (({ task0 with status := .completed } : SyncTask).status = .completed ∨
     ({ task0 with status := .completed } : SyncTask).status = .failed ∨
     ({ task0 with status := .completed } : SyncTask).status = .cancelled) ∧
    cancel_sync 9 { task0 with status := .completed } =
      ({ task0 with status := .completed }, false) :=
  ⟨Or.inl (by decide),
   cancel_sync_terminal_noop 9 _ (Or.inl (by decide))⟩

/-- C1: for a conversation whose remote id listing succeeded fully with
set `R`, the deletion check flags exactly the not-yet-deleted local rows
whose id is outside `R` (setting `is_deleted = true` and
`deleted_at = now`, nothing else), leaves every row whose id is in `R`
and every already-deleted row byte-identical, preserves the row count,
and for a conversation whose listing failed it makes zero changes;
distinct conversations are processed independently. -/
theorem check_deleted_chat_correct (now : Nat) (R : List Nat)
    (store : MessageStore) (i mid : Nat) (m : TelegramMessage)
    (hrow : store[i]? = some (mid, m)) :
    (check_deleted_chat now (some R) store).1.length = store.length ∧
    (m.is_deleted = false → mid ∉ R →
      (check_deleted_chat now (some R) store).1[i]? =
        some (mid, markDeleted now m)) ∧
    (mid ∈ R →
      (check_deleted_chat now (some R) store).1[i]? = some (mid, m)) ∧
    (m.is_deleted = true →
      (check_deleted_chat now (some R) store).1[i]? = some (mid, m)) ∧
    check_deleted_chat now none store = (store, 0) ∧
    (∀ (chats : List (Option (List Nat) × MessageStore)) (j : Nat)
        (cj : Option (List Nat) × MessageStore), chats[j]? = some cj →
      (check_deleted_messages now chats)[j]? =
        some (check_deleted_chat now cj.1 cj.2)) := by
  refine ⟨by simp [check_deleted_chat], ?_, ?_, ?_, rfl, ?_⟩
  · intro h1 h2
    simp [check_deleted_chat, List.getElem?_map, hrow, h1, h2]
  · intro hR
    simp [check_deleted_chat, List.getElem?_map, hrow]
    intro _ hnot
    exact absurd hR hnot
  · intro h1
    simp [check_deleted_chat, List.getElem?_map, hrow, h1]
  · intro chats j cj hcj
    simp [check_deleted_messages, List.getElem?_map, hcj]

/-- Witness for C1: a three-row store (one live row kept by the remote
set, one already-deleted row, one live row absent remotely) at the row
with id 3, remote set `R = [1]`. -/
theorem check_deleted_chat_correct_witness :
    ([(1, mkRow "a"), (2, markDeleted 0 (mkRow "b")), (3, mkRow "c")] :
        MessageStore)[2]? = some (3, mkRow "c") ∧
    ((check_deleted_chat 5 (some [1])
        [(1, mkRow "a"), (2, markDeleted 0 (mkRow "b")),
         (3, mkRow "c")]).1.length =
      ([(1, mkRow "a"), (2, markDeleted 0 (mkRow "b")),
        (3, mkRow "c")] : MessageStore).length ∧
     ((mkRow "c").is_deleted = false → 3 ∉ [1] →
       (check_deleted_chat 5 (some [1])
          [(1, mkRow "a"), (2, markDeleted 0 (mkRow "b")),
           (3, mkRow "c")]).1[2]? = some (3, markDeleted 5 (mkRow "c"))) ∧
     (3 ∈ [1] →
       (check_deleted_chat 5 (some [1])
          [(1, mkRow "a"), (2, markDeleted 0 (mkRow "b")),
           (3, mkRow "c")]).1[2]? = some (3, mkRow "c")) ∧
     ((mkRow "c").is_deleted = true →
       (check_deleted_chat 5 (some [1])
          [(1, mkRow "a"), (2, markDeleted 0 (mkRow "b")),
           (3, mkRow "c")]).1[2]? = some (3, mkRow "c")) ∧
     check_deleted_chat 5 none
        [(1, mkRow "a"), (2, markDeleted 0 (mkRow "b")), (3, mkRow "c")] =
       ([(1, mkRow "a"), (2, markDeleted 0 (mkRow "b")), (3, mkRow "c")],
        0) ∧
     (∀ (chats : List (Option (List Nat) × MessageStore)) (j : Nat)
         (cj : Option (List Nat) × MessageStore), chats[j]? = some cj →
       (check_deleted_messages 5 chats)[j]? =
         some (check_deleted_chat 5 cj.1 cj.2))) :=
  ⟨by decide,
   check_deleted_chat_correct 5 [1]
     [(1, mkRow "a"), (2, markDeleted 0 (mkRow "b")), (3, mkRow "c")]
     2 3 (mkRow "c") (by decide)⟩

/-- Any message of a fetched page lies strictly between the `min_id`
seed and the page offset, and comes from the remote history. -/
theorem mem_get_messages {history : List MsgData} {limit offset_id min_id : Nat}
    {d : MsgData} (h : d ∈ get_messages history limit offset_id min_id) :
    (offset_id = 0 ∨ d.id < offset_id) ∧ min_id < d.id ∧ d ∈ history := by
  unfold get_messages at h
  have h1 := List.mem_of_mem_take h
  rw [List.mem_insertionSort, List.mem_filter] at h1
  obtain ⟨hmem, hcond⟩ := h1
  simp only [Bool.and_eq_true, Bool.or_eq_true, beq_iff_eq,
    decide_eq_true_eq] at hcond
  exact ⟨hcond.1, hcond.2, hmem⟩

/-- A fetched page is sorted newest-first. -/
theorem pairwise_get_messages (history : List MsgData)
    (limit offset_id min_id : Nat) :
    (get_messages history limit offset_id min_id).Pairwise msgGe :=
  (List.sorted_insertionSort msgGe _).sublist (List.take_sublist _ _)

/-- A fetched page has no duplicate ids when the remote history has
none. -/
theorem nodup_ids_get_messages {history : List MsgData}
    (hids : (history.map (·.id)).Nodup) (limit offset_id min_id : Nat) :
    ((get_messages history limit offset_id min_id).map (·.id)).Nodup := by
  unfold get_messages
  have h1 : ((history.filter (fun d =>
      (offset_id == 0 || decide (d.id < offset_id)) &&
        decide (min_id < d.id))).map (·.id)).Nodup :=
    hids.sublist ((List.filter_sublist _).map _)
  have h2 : (((history.filter (fun d =>
      (offset_id == 0 || decide (d.id < offset_id)) &&
        decide (min_id < d.id))).insertionSort msgGe).map (·.id)).Nodup :=
    (((List.perm_insertionSort msgGe _).map (·.id)).nodup_iff).mpr h1
  exact h2.sublist ((List.take_sublist _ _).map _)

/-- The last (oldest) element of a newest-first sorted list bounds every
element from below. -/
theorem getLast_id_le_of_pairwise :
    ∀ {l : List MsgData}, l.Pairwise msgGe → ∀ {x : MsgData},
      l.getLast? = some x → ∀ {a : MsgData}, a ∈ l → x.id ≤ a.id := by
  intro l
  induction l with
  | nil => intro _ x hx; cases hx
  | cons hd tl ih =>
    intro hs x hx a ha
    rcases List.pairwise_cons.mp hs with ⟨hrel, htl⟩
    cases tl with
    | nil =>
      simp only [List.getLast?_singleton, Option.some.injEq] at hx
      rcases List.mem_singleton.mp ha with rfl
      subst hx
      exact Nat.le_refl _
    | cons h2 t2 =>
      rw [List.getLast?_cons_cons] at hx
      rcases List.mem_cons.mp ha with rfl | ha2
      · have hxmem : x ∈ h2 :: t2 := List.mem_of_mem_getLast? hx
        exact hrel x hxmem
      · exact ih htl hx ha2

/-- Every message produced by the paging loop lies strictly above the
`min_id` seed, strictly below the running offset (when non-zero), and
comes from the remote history. -/
theorem mem_fetchPages {history : List MsgData} {min_id : Nat} :
    ∀ (fuel offset_id : Nat) {d : MsgData},
      d ∈ fetchPages history min_id offset_id fuel →
      (offset_id = 0 ∨ d.id < offset_id) ∧ min_id < d.id ∧ d ∈ history := by
  intro fuel
  induction fuel with
  | zero => intro o d h; simp [fetchPages] at h
  | succ n ih =>
    intro offset_id d h
    simp only [fetchPages] at h
    split at h
    · cases h
    · next lastMsg hL =>
      have hlast : lastMsg ∈ get_messages history 100 offset_id min_id :=
        List.mem_of_mem_getLast? hL
      obtain ⟨hlo, hlmin, _⟩ := mem_get_messages hlast
      split at h
      · exact mem_get_messages h
      · rcases List.mem_append.mp h with hm | hr
        · exact mem_get_messages hm
        · obtain ⟨ho, hmin, hh⟩ := ih lastMsg.id hr
          refine ⟨?_, hmin, hh⟩
          have hlpos : lastMsg.id ≠ 0 := Nat.pos_iff_ne_zero.mp
            (Nat.lt_of_le_of_lt (Nat.zero_le _) hlmin)
          rcases ho with ho | ho
          · exact absurd ho hlpos
          · rcases hlo with rfl | hlo
            · exact Or.inl rfl
            · exact Or.inr (Nat.lt_trans ho hlo)

/-- When the remote history has no duplicate ids, the paging loop's
output is strictly decreasing in message id. -/
theorem pairwise_fetchPages {history : List MsgData} {min_id : Nat}
    (hids : (history.map (·.id)).Nodup) :
    ∀ (fuel offset_id : Nat),
      (fetchPages history min_id offset_id fuel).Pairwise
        (fun a b => b.id < a.id) := by
  intro fuel
  induction fuel with
  | zero => intro o; simp [fetchPages]
  | succ n ih =>
    intro offset_id
    have hpage : (get_messages history 100 offset_id min_id).Pairwise
        (fun a b => b.id < a.id) := by
      have h1 := pairwise_get_messages history 100 offset_id min_id
      have h2 : (get_messages history 100 offset_id min_id).Pairwise
          (fun a b => a.id ≠ b.id) := by
        have := nodup_ids_get_messages hids 100 offset_id min_id
        rw [List.Nodup, List.pairwise_map] at this
        exact this
      exact (h1.and h2).imp
        (fun hab => Nat.lt_of_le_of_ne hab.1 (Ne.symm hab.2))
    simp only [fetchPages]
    split
    · exact List.Pairwise.nil
    · next lastMsg hL =>
      have hlast : lastMsg ∈ get_messages history 100 offset_id min_id :=
        List.mem_of_mem_getLast? hL
      split
      · exact hpage
      · rw [List.pairwise_append]
        refine ⟨hpage, ih lastMsg.id, ?_⟩
        intro a ha b hb
        have hble : b.id < lastMsg.id := by
          obtain ⟨ho, hmin, _⟩ := mem_fetchPages n lastMsg.id hb
          have hlpos : lastMsg.id ≠ 0 := Nat.pos_iff_ne_zero.mp
            (Nat.lt_of_le_of_lt (Nat.zero_le _)
              (mem_get_messages hlast).2.1)
          rcases ho with ho | ho
          · exact absurd ho hlpos
          · exact ho
        have hla : lastMsg.id ≤ a.id :=
          getLast_id_le_of_pairwise
            (pairwise_get_messages history 100 offset_id min_id) hL ha
        exact Nat.lt_of_lt_of_le hble hla

/-- The fold seed bounds the max-id fold from below. -/
theorem init_le_foldl_max : ∀ (l : List MsgData) (a : Nat),
    a ≤ l.foldl (fun x d => max x d.id) a := by
  intro l
  induction l with
  | nil => intro a; exact Nat.le_refl a
  | cons hd tl ih =>
    intro a
    exact Nat.le_trans (Nat.le_max_left a hd.id) (ih (max a hd.id))

/-- `maxIdOf` bounds every element of the list. -/
theorem le_maxIdOf : ∀ {l : List MsgData} {m : MsgData}, m ∈ l →
    ∀ (a : Nat), m.id ≤ l.foldl (fun x d => max x d.id) a := by
  intro l
  induction l with
  | nil => intro m h; cases h
  | cons hd tl ih =>
    intro m h a
    rcases List.mem_cons.mp h with rfl | h2
    · exact Nat.le_trans (Nat.le_max_right a m.id)
        (init_le_foldl_max tl (max a m.id))
    · exact ih h2 _

/-- C7 fails as stated: the fetch loop follows the remote client's
newest-first paging (`offset_id` walks backwards through history), so
with remote history `{1, 2}` the pass fetches id 2 before id 1 — the
earlier-fetched message has the larger id, not the smaller. -/
theorem fetch_order_not_increasing :
    (fetch_all_messages_from_chat [mkMsgData 1, mkMsgData 2] 0).map
        (fun d => d.id) = [2, 1] ∧
    ¬ ((fetch_all_messages_from_chat [mkMsgData 1, mkMsgData 2] 0).map
        (fun d => d.id)).Sorted (· < ·) := by
  have h : (fetch_all_messages_from_chat [mkMsgData 1, mkMsgData 2] 0).map
      (fun d => d.id) = [2, 1] := by decide
  refine ⟨h, ?_⟩
  rw [h]
  decide

/-- C7 amended: within one conversation the message-fetch loop, seeded
below by the ledger's high-water mark, retrieves messages newest-first
and never re-orders them: the fetched sequence is strictly decreasing in
message id (for a remote history without duplicate ids), and every
fetched id strictly exceeds the `min_id` seed. -/
theorem fetch_order_descending (history : List MsgData) (min_id : Nat)
    (hids : (history.map (·.id)).Nodup) :
    (fetch_all_messages_from_chat history min_id).Pairwise
      (fun a b => b.id < a.id) ∧
    ∀ d ∈ fetch_all_messages_from_chat history min_id, min_id < d.id := by
  constructor
  · exact pairwise_fetchPages hids _ 0
  · intro d hd
    exact (mem_fetchPages _ 0 hd).2.1

/-- Witness for the amended C7 on the remote history `{1, 2}`. -/
theorem fetch_order_descending_witness :
    (([mkMsgData 1, mkMsgData 2].map (·.id)).Nodup) ∧
    ((fetch_all_messages_from_chat [mkMsgData 1, mkMsgData 2] 0).Pairwise
        (fun a b => b.id < a.id) ∧
     ∀ d ∈ fetch_all_messages_from_chat [mkMsgData 1, mkMsgData 2] 0,
        0 < d.id) :=
  ⟨by decide, fetch_order_descending _ 0 (by decide)⟩

/-- Looking a chat up after an in-place ledger update. -/
theorem findChat_updateChat (chats : List (Int × TelegramChat))
    (cid cid' : Int) (f : TelegramChat → TelegramChat) :
    findChat (updateChat chats cid f) cid' =
      if cid' = cid then (findChat chats cid').map f
      else findChat chats cid' := by
  unfold findChat updateChat
  rw [List.find?_map]
  have hpred : ((fun p : Int × TelegramChat => p.1 == cid') ∘
      (fun p : Int × TelegramChat => if p.1 == cid then (p.1, f p.2) else p)) =
      (fun p : Int × TelegramChat => p.1 == cid') := by
    funext p
    by_cases h : p.1 = cid <;> simp [h]
  rw [hpred]
  cases hf : chats.find? (fun p => p.1 == cid') with
  | none => simp
  | some p0 =>
    have hp0 : p0.1 = cid' := by
      have := List.find?_some hf
      simpa using this
    by_cases h2 : cid' = cid
    · subst h2
      simp [hp0]
    · simp [hp0, h2]

/-- Looking a chat up after appending a fresh ledger row. -/
theorem findChat_append_single (chats : List (Int × TelegramChat)) (k : Int)
    (v : TelegramChat) (cid : Int) :
    findChat (chats ++ [(k, v)]) cid =
      (findChat chats cid).or (if cid = k then some v else none) := by
  unfold findChat
  rw [List.find?_append]
  cases hf : chats.find? (fun p => p.1 == cid) with
  | none =>
    simp only [Option.map_none, Option.none_or]
    by_cases h : cid = k
    · subst h; simp [List.find?]
    · have hb : (k == cid) = false := beq_eq_false_iff_ne.mpr (Ne.symm h)
      simp [List.find?, hb, h]
  | some p0 => simp

/-- After the ledger upsert, the processed chat is present and is the
returned row. -/
theorem findChat_getOrCreateChat_self (chats : List (Int × TelegramChat))
    (c : ChatData) :
    findChat (getOrCreateChat chats c).1 c.id =
      some (getOrCreateChat chats c).2 := by
  unfold getOrCreateChat
  cases hf : findChat chats c.id with
  | some tc =>
    simp only [hf]
    rw [findChat_updateChat]
    simp [hf]
  | none =>
    simp only [hf]
    rw [findChat_append_single, hf]
    simp

/-- The ledger upsert leaves other chats' rows untouched. -/
theorem findChat_getOrCreateChat_other (chats : List (Int × TelegramChat))
    (c : ChatData) (cid : Int) (h : cid ≠ c.id) :
    findChat (getOrCreateChat chats c).1 cid = findChat chats cid := by
  unfold getOrCreateChat
  cases hf : findChat chats c.id with
  | some tc =>
    simp only [hf]
    rw [findChat_updateChat]
    simp [h]
  | none =>
    simp only [hf]
    rw [findChat_append_single]
    simp [h]

/-- The ledger upsert never changes the stored high-water mark: the
updated row keeps `last_message_id`, a fresh row starts at null. -/
theorem getOrCreateChat_last (chats : List (Int × TelegramChat))
    (c : ChatData) :
    (getOrCreateChat chats c).2.last_message_id =
      (match findChat chats c.id with
       | some tc => tc.last_message_id
       | none => none) := by
  unfold getOrCreateChat
  cases hf : findChat chats c.id <;> simp [hf]

/-- How one loop iteration transforms the conversation ledger. -/
theorem syncOneChat_chats (now : Nat) (st : SyncState) (c : ChatData) :
    (syncOneChat now st c).chats =
      match c.remote with
      | none => (getOrCreateChat st.chats c).1
      | some history =>
        updateChat (getOrCreateChat st.chats c).1 c.id (fun tc =>
          let msgs := fetch_all_messages_from_chat history
            ((getOrCreateChat st.chats c).2.last_message_id.getD 0)
          let tc1 := if msgs.isEmpty then tc
            else { tc with last_message_id := some (maxIdOf msgs) }
          { tc1 with
            total_messages :=
              (applyMessages now (findStoreD st.stores c.id) msgs).1.length,
            last_full_sync := some now }) := by
  cases hrem : c.remote <;> simp only [syncOneChat, hrem]

/-- The `min_id` seed taken from the upserted ledger row equals the
conversation's stored high-water-mark reading. -/
theorem hwm_getOrCreateChat (chats : List (Int × TelegramChat)) (c : ChatData) :
    (getOrCreateChat chats c).2.last_message_id.getD 0 =
      ((findChat chats c.id).map
        (fun x => x.last_message_id.getD 0)).getD 0 := by
  rw [getOrCreateChat_last]
  cases hf : findChat chats c.id <;> simp [hf]

/-- One loop iteration never decreases any conversation's stored
high-water mark. -/
theorem hwm_step_le (now : Nat) (st : SyncState) (c : ChatData) (cid : Int) :
    ledger_hwm st cid ≤ ledger_hwm (syncOneChat now st c) cid := by
  unfold ledger_hwm
  rw [syncOneChat_chats]
  cases hrem : c.remote with
  | none =>
    by_cases hcid : cid = c.id
    · subst hcid
      rw [findChat_getOrCreateChat_self, ← hwm_getOrCreateChat]
      simp
    · rw [findChat_getOrCreateChat_other _ _ _ hcid]
  | some history =>
    by_cases hcid : cid = c.id
    · subst hcid
      rw [findChat_updateChat, if_pos rfl, findChat_getOrCreateChat_self,
        ← hwm_getOrCreateChat]
      set r2 := (getOrCreateChat st.chats c).2 with hr2
      set msgs := fetch_all_messages_from_chat history
        (r2.last_message_id.getD 0) with hmsgs
      by_cases hE : msgs.isEmpty
      · simp [hE]
      · simp only [Bool.not_eq_true] at hE
        simp [hE]
        have hne : msgs ≠ [] := by
          intro h
          rw [h] at hE
          simp at hE
        obtain ⟨d, hd⟩ := List.exists_mem_of_ne_nil msgs hne
        have hgt : r2.last_message_id.getD 0 < d.id := by
          have hmem := @mem_fetchPages history
            (r2.last_message_id.getD 0)
            (history.length + 1) 0 d (by rw [hmsgs] at hd; exact hd)
          exact hmem.2.1
        have hle : d.id ≤ maxIdOf msgs := le_maxIdOf hd 0
        exact Nat.le_of_lt (Nat.lt_of_lt_of_le hgt hle)
    · rw [findChat_updateChat, if_neg hcid,
        findChat_getOrCreateChat_other _ _ _ hcid]

/-- C2: the stored high-water mark (`last_message_id`) is monotonically
non-decreasing: one successful pass (and hence any sequence of passes)
never lowers it for any conversation, because paging is seeded with
`min_id = last_message_id or 0` and the mark is rewritten to the maximum
id seen only when at least one message was seen; a failed fetch and an
empty fetch both leave the mark exactly unchanged. -/
theorem last_message_id_monotone (now : Nat) :
    (∀ (st : SyncState) (c : ChatData) (cid : Int),
        ledger_hwm st cid ≤ ledger_hwm (syncOneChat now st c) cid) ∧
    (∀ (passes : List ChatData) (st : SyncState) (cid : Int),
        ledger_hwm st cid ≤
          ledger_hwm (passes.foldl (syncOneChat now) st) cid) ∧
    (∀ (st : SyncState) (c : ChatData), c.remote = none →
        ledger_hwm (syncOneChat now st c) c.id = ledger_hwm st c.id) ∧
    (∀ (st : SyncState) (c : ChatData) (history : List MsgData),
        c.remote = some history →
        fetch_all_messages_from_chat history (ledger_hwm st c.id) = [] →
        ledger_hwm (syncOneChat now st c) c.id = ledger_hwm st c.id) := by
  refine ⟨hwm_step_le now, ?_, ?_, ?_⟩
  · intro passes
    induction passes with
    | nil => intro st cid; exact Nat.le_refl _
    | cons p ps ih =>
      intro st cid
      exact Nat.le_trans (hwm_step_le now st p cid)
        (ih (syncOneChat now st p) cid)
  · intro st c hrem
    unfold ledger_hwm
    rw [syncOneChat_chats, hrem, findChat_getOrCreateChat_self,
      ← hwm_getOrCreateChat]
    simp
  · intro st c history hrem hfetch
    unfold ledger_hwm at hfetch ⊢
    rw [← hwm_getOrCreateChat] at hfetch
    rw [syncOneChat_chats, hrem, findChat_updateChat, if_pos rfl,
      findChat_getOrCreateChat_self, ← hwm_getOrCreateChat]
    simp [hfetch]

/-- Witness for C2: a fresh state, one pass seeing message 5, one failed
pass, and one empty pass over conversation 1. -/
theorem last_message_id_monotone_witness :
    ledger_hwm state0 1 ≤
      ledger_hwm (syncOneChat 4 state0 (mkChatData 1 (some [mkMsgData 5]))) 1 ∧
    (mkChatData 1 none).remote = none ∧
    ledger_hwm (syncOneChat 4 state0 (mkChatData 1 none)) 1 =
      ledger_hwm state0 1 ∧
    (mkChatData 1 (some [])).remote = some [] ∧
    fetch_all_messages_from_chat [] (ledger_hwm state0 1) = [] ∧
    ledger_hwm (syncOneChat 4 state0 (mkChatData 1 (some []))) 1 =
      ledger_hwm state0 1 :=
  ⟨(last_message_id_monotone 4).1 state0 (mkChatData 1 (some [mkMsgData 5])) 1,
   rfl,
   (last_message_id_monotone 4).2.2.1 state0 (mkChatData 1 none) rfl,
   rfl,
   by decide,
   (last_message_id_monotone 4).2.2.2 state0 (mkChatData 1 (some [])) []
     rfl (by decide)⟩

/-- Looking a message up after an in-place keyed update of the store. -/
theorem findMsg_update (store : MessageStore) (mid mid' : Nat)
    (f : TelegramMessage → TelegramMessage) :
    findMsg (store.map (fun p => if p.1 == mid then (p.1, f p.2) else p)) mid' =
      if mid' = mid then (findMsg store mid').map f
      else findMsg store mid' := by
  unfold findMsg
  rw [List.find?_map]
  have hpred : ((fun p : Nat × TelegramMessage => p.1 == mid') ∘
      (fun p : Nat × TelegramMessage =>
        if p.1 == mid then (p.1, f p.2) else p)) =
      (fun p : Nat × TelegramMessage => p.1 == mid') := by
    funext p
    by_cases h : p.1 = mid <;> simp [h]
  rw [hpred]
  cases hf : store.find? (fun p => p.1 == mid') with
  | none => simp
  | some p0 =>
    have hp0 : p0.1 = mid' := by
      have := List.find?_some hf
      simpa using this
    by_cases h2 : mid' = mid
    · subst h2
      simp [hp0]
    · simp [hp0, h2]

/-- Looking a message up after appending a fresh row. -/
theorem findMsg_append_single (store : MessageStore) (k : Nat)
    (v : TelegramMessage) (mid : Nat) :
    findMsg (store ++ [(k, v)]) mid =
      (findMsg store mid).or (if mid = k then some v else none) := by
  unfold findMsg
  rw [List.find?_append]
  cases hf : store.find? (fun p => p.1 == mid) with
  | none =>
    simp only [Option.map_none, Option.none_or]
    by_cases h : mid = k
    · subst h; simp [List.find?]
    · have hb : (k == mid) = false := beq_eq_false_iff_ne.mpr (Ne.symm h)
      simp [List.find?, hb, h]
  | some p0 => simp

/-- If the incoming message's row already exists and its media file is
already present whenever the incoming data carries one, the sync upsert
is a complete no-op (`get_or_create` hits and the backfill guard
fails). -/
theorem syncUpsert_skip (now : Nat) (store : MessageStore) (d : MsgData)
    (m : TelegramMessage) (hm : findMsg store d.id = some m)
    (hmedia : strTruthy d.media_file_path = true →
      strTruthy m.media_file = true) :
    syncUpsert now store d = (store, false, false) := by
  unfold syncUpsert
  rw [hm]
  cases hp : strTruthy d.media_file_path with
  | false => simp [hp]
  | true => simp [hp, hmedia hp]

/-- After one sync upsert, the incoming message's row exists and its
media file is present whenever the incoming data carried one. -/
theorem syncUpsert_establishes (now : Nat) (store : MessageStore)
    (d : MsgData) :
    ∃ m, findMsg (syncUpsert now store d).1 d.id = some m ∧
      (strTruthy d.media_file_path = true →
        strTruthy m.media_file = true) := by
  unfold syncUpsert
  cases hm : findMsg store d.id with
  | none =>
    refine ⟨createRow now d, ?_, ?_⟩
    · rw [findMsg_append_single, hm]
      simp
    · intro hp
      simpa [createRow] using hp
  | some m0 =>
    by_cases hcond : (strTruthy d.media_file_path &&
        !strTruthy m0.media_file) = true
    · refine ⟨backfillMedia now d m0, ?_, ?_⟩
      · simp only [hcond, if_true]
        rw [findMsg_update, if_pos rfl, hm]
        rfl
      · intro hp
        simpa [backfillMedia] using hp
    · have hbf : (strTruthy d.media_file_path &&
          !strTruthy m0.media_file) = false := by
        revert hcond
        cases (strTruthy d.media_file_path && !strTruthy m0.media_file) <;>
          simp
      refine ⟨m0, ?_, ?_⟩
      · simp only [hbf]
        simpa using hm
      · intro hp
        rw [hp] at hbf
        simpa using hbf

/-- A sync upsert of one message keeps every existing row present and
never removes an already-present media file. -/
theorem syncUpsert_preserves (now : Nat) (store : MessageStore) (d : MsgData)
    (mid : Nat) (m : TelegramMessage) (hm : findMsg store mid = some m) :
    ∃ m2, findMsg (syncUpsert now store d).1 mid = some m2 ∧
      (strTruthy m.media_file = true → strTruthy m2.media_file = true) := by
  unfold syncUpsert
  cases hd : findMsg store d.id with
  | none =>
    refine ⟨m, ?_, fun h => h⟩
    rw [findMsg_append_single, hm]
    rfl
  | some m0 =>
    by_cases hcond : (strTruthy d.media_file_path &&
        !strTruthy m0.media_file) = true
    · by_cases hmid : mid = d.id
      · subst hmid
        rw [hm] at hd
        injection hd with hd2
        subst hd2
        refine ⟨backfillMedia now d m, ?_, ?_⟩
        · simp only [hcond, if_true]
          rw [findMsg_update, if_pos rfl, hm]
          rfl
        · intro habs
          rcases (Bool.and_eq_true _ _).mp hcond with ⟨_, hneg⟩
          rw [habs] at hneg
          simp at hneg
      · refine ⟨m, ?_, fun h => h⟩
        simp only [hcond, if_true]
        rw [findMsg_update, if_neg hmid]
        exact hm
    · have hbf : (strTruthy d.media_file_path &&
          !strTruthy m0.media_file) = false := by
        revert hcond
        cases (strTruthy d.media_file_path && !strTruthy m0.media_file) <;>
          simp
      refine ⟨m, ?_, fun h => h⟩
      simp only [hbf]
      simpa using hm

/-- The store component of the upsert fold ignores the counter
accumulators. -/
theorem foldl_store_eq : ∀ (page : List MsgData) (now : Nat)
    (s : MessageStore) (a b a2 b2 : Nat),
    (page.foldl (fun acc d =>
        let r := syncUpsert now acc.1 d
        (r.1, acc.2.1 + (if r.2.1 then 1 else 0),
          acc.2.2 + (if r.2.2 then 1 else 0))) (s, a, b)).1 =
      (page.foldl (fun acc d =>
        let r := syncUpsert now acc.1 d
        (r.1, acc.2.1 + (if r.2.1 then 1 else 0),
          acc.2.2 + (if r.2.2 then 1 else 0))) (s, a2, b2)).1 := by
  intro page
  induction page with
  | nil => intros; rfl
  | cons d0 rest ih =>
    intro now s a b a2 b2
    simp only [List.foldl_cons]
    exact ih now (syncUpsert now s d0).1 _ _ _ _

/-- Peeling one message off the page-level upsert, store component. -/
theorem applyMessages_cons_store (now : Nat) (s : MessageStore) (d0 : MsgData)
    (rest : List MsgData) :
    (applyMessages now s (d0 :: rest)).1 =
      (applyMessages now (syncUpsert now s d0).1 rest).1 := by
  simp only [applyMessages, List.foldl_cons]
  exact foldl_store_eq rest now (syncUpsert now s d0).1 _ _ 0 0

/-- A page-level upsert keeps every existing row present and never
removes an already-present media file. -/
theorem applyMessages_preserves : ∀ (page : List MsgData) (now : Nat)
    (s : MessageStore) (mid : Nat) (m : TelegramMessage),
    findMsg s mid = some m →
    ∃ m2, findMsg (applyMessages now s page).1 mid = some m2 ∧
      (strTruthy m.media_file = true → strTruthy m2.media_file = true) := by
  intro page
  induction page with
  | nil => intro now s mid m hm; exact ⟨m, hm, fun h => h⟩
  | cons d0 rest ih =>
    intro now s mid m hm
    obtain ⟨m1, hm1, hmed1⟩ := syncUpsert_preserves now s d0 mid m hm
    obtain ⟨m2, hm2, hmed2⟩ := ih now (syncUpsert now s d0).1 mid m1 hm1
    refine ⟨m2, ?_, fun h => hmed2 (hmed1 h)⟩
    rw [applyMessages_cons_store]
    exact hm2

/-- After a page-level upsert, every message of the page has its row
present, with the media file filled in whenever the page carried one. -/
theorem applyMessages_establishes_all : ∀ (page : List MsgData) (now : Nat)
    (s : MessageStore) (d : MsgData), d ∈ page →
    ∃ m, findMsg (applyMessages now s page).1 d.id = some m ∧
      (strTruthy d.media_file_path = true →
        strTruthy m.media_file = true) := by
  intro page
  induction page with
  | nil => intro now s d h; cases h
  | cons d0 rest ih =>
    intro now s d h
    rcases List.mem_cons.mp h with rfl | hrest
    · obtain ⟨m, hm, hmed⟩ := syncUpsert_establishes now s d
      obtain ⟨m2, hm2, hmed2⟩ :=
        applyMessages_preserves rest now (syncUpsert now s d).1 d.id m hm
      refine ⟨m2, ?_, fun hp => hmed2 (hmed hp)⟩
      rw [applyMessages_cons_store]
      exact hm2
    · obtain ⟨m, hm, hmed⟩ := ih now (syncUpsert now s d0).1 d hrest
      refine ⟨m, ?_, hmed⟩
      rw [applyMessages_cons_store]
      exact hm

/-- If every message of a page already has its row present with media
filled where the page carries one, re-applying the page is a complete
no-op (store, new-message counter and media counter all unchanged). -/
theorem applyMessages_skip_all : ∀ (page : List MsgData) (now : Nat)
    (s : MessageStore),
    (∀ d ∈ page, ∃ m, findMsg s d.id = some m ∧
        (strTruthy d.media_file_path = true →
          strTruthy m.media_file = true)) →
    applyMessages now s page = (s, 0, 0) := by
  intro page
  induction page with
  | nil => intro now s _; rfl
  | cons d0 rest ih =>
    intro now s h
    obtain ⟨m, hm, hmed⟩ := h d0 (List.mem_cons_self d0 rest)
    have hskip := syncUpsert_skip now s d0 m hm hmed
    have htail := ih now s (fun d hd => h d (List.mem_cons_of_mem _ hd))
    simp only [applyMessages, List.foldl_cons, hskip] at htail ⊢
    simpa using htail

/-- One sync upsert preserves uniqueness of the `(chat, message_id)`
key: it appends only an absent key and otherwise updates in place. -/
theorem syncUpsert_keys_nodup (now : Nat) (store : MessageStore) (d : MsgData)
    (h : (store.map Prod.fst).Nodup) :
    ((syncUpsert now store d).1.map Prod.fst).Nodup := by
  unfold syncUpsert
  cases hm : findMsg store d.id with
  | none =>
    have hf : store.find? (fun p => p.1 == d.id) = none := by
      unfold findMsg at hm
      cases hf2 : store.find? (fun p => p.1 == d.id) with
      | none => rfl
      | some p0 => rw [hf2] at hm; cases hm
    have hnotin : d.id ∉ store.map Prod.fst := by
      intro hin
      obtain ⟨p, hp, hfst⟩ := List.mem_map.mp hin
      have := List.find?_eq_none.mp hf p hp
      simp [hfst] at this
    simp [List.nodup_append, h, hnotin]
  | some m0 =>
    by_cases hcond : (strTruthy d.media_file_path &&
        !strTruthy m0.media_file) = true
    · simp only [hcond, if_true]
      have hkeys : (store.map (fun p =>
          if p.1 == d.id then (p.1, backfillMedia now d p.2)
          else p)).map Prod.fst = store.map Prod.fst := by
        rw [List.map_map]
        apply List.map_congr_left
        intro p _
        by_cases hp : p.1 = d.id <;> simp [hp]
      rw [hkeys]
      exact h
    · have hbf : (strTruthy d.media_file_path &&
          !strTruthy m0.media_file) = false := by
        revert hcond
        cases (strTruthy d.media_file_path && !strTruthy m0.media_file) <;>
          simp
      simp only [hbf]
      simpa using h

/-- A page-level upsert preserves key uniqueness of the store. -/
theorem applyMessages_keys_nodup : ∀ (page : List MsgData) (now : Nat)
    (s : MessageStore), (s.map Prod.fst).Nodup →
    (((applyMessages now s page).1).map Prod.fst).Nodup := by
  intro page
  induction page with
  | nil => intro now s h; exact h
  | cons d0 rest ih =>
    intro now s h
    rw [applyMessages_cons_store]
    exact ih now _ (syncUpsert_keys_nodup now s d0 h)

/-- C3: applying the same fetched page to the message store twice (the
background sync's upsert keyed by `(chat, message_id)`) is idempotent:
the second application returns the store byte-identical (same row count
and field values; `last_seen_at` does not even advance, since a pure
`get_or_create` hit performs no save) with zero new-message and media
counts, and the upsert never creates a duplicate `(chat, message_id)`
row. -/
theorem sync_page_upsert_idempotent (now now2 : Nat) (store : MessageStore)
    (page : List MsgData) (hkeys : (store.map Prod.fst).Nodup) :
    applyMessages now2 (applyMessages now store page).1 page =
      ((applyMessages now store page).1, 0, 0) ∧
    (((applyMessages now store page).1).map Prod.fst).Nodup := by
  constructor
  · apply applyMessages_skip_all
    intro d hd
    exact applyMessages_establishes_all page now store d hd
  · exact applyMessages_keys_nodup page now store hkeys

/-- Witness for C3: one pre-existing row, a page with one new message
and one re-sighted message carrying a media file. -/
theorem sync_page_upsert_idempotent_witness :
    (([(1, mkRow "old")] : MessageStore).map Prod.fst).Nodup ∧
    (applyMessages 8 (applyMessages 7 [(1, mkRow "old")]
        [mkMsgData 2, { mkMsgData 1 with media_file_path := some "p" }]).1
        [mkMsgData 2, { mkMsgData 1 with media_file_path := some "p" }] =
      ((applyMessages 7 [(1, mkRow "old")]
        [mkMsgData 2, { mkMsgData 1 with media_file_path := some "p" }]).1,
       0, 0) ∧
     (((applyMessages 7 [(1, mkRow "old")]
        [mkMsgData 2,
         { mkMsgData 1 with media_file_path := some "p" }]).1).map
       Prod.fst).Nodup) :=
  ⟨by decide, sync_page_upsert_idempotent 7 8 _ _ (by decide)⟩

/-- C6 fails as stated: the single-chat sync view (views.py 748-765)
uses `update_or_create`, whose `defaults` include `text`, so a
re-sighted message overwrites the stored text in place. -/
theorem update_or_create_overwrites_text :
    (findMsg [(1, mkRow "original")] 1).map (fun m => m.text) =
      some "original" ∧
    (findMsg (update_or_create_message 9 [(1, mkRow "original")]
        { mkMsgData 1 with text := "edited" }) 1).map (fun m => m.text) =
      some "edited" ∧
    ("edited" : String) ≠ "original" := by
  refine ⟨by decide, by decide, by decide⟩

/-- C6 amended: along the background sync's upsert path
(`get_or_create`, services.py 872-911), a subsequent sighting of an
already-stored `(chat, message_id)` never overwrites the stored text:
the row is either left byte-identical or, exactly when the stored media
file was previously absent and the sighting carries one, updated by the
media backfill, which changes only the attachment descriptor fields and
`last_seen_at` and leaves text, date, sender, flags, deletion state and
`first_seen_at` unchanged. The single-chat sync view's
`update_or_create` path does overwrite `text`. -/
theorem sync_upsert_never_overwrites_text (now : Nat) (store : MessageStore)
    (d : MsgData) (m : TelegramMessage) (hm : findMsg store d.id = some m) :
    ∃ m2, findMsg (syncUpsert now store d).1 d.id = some m2 ∧
      m2.text = m.text ∧ m2.date = m.date ∧ m2.sender_id = m.sender_id ∧
      m2.sender_name = m.sender_name ∧ m2.is_outgoing = m.is_outgoing ∧
      m2.has_media = m.has_media ∧ m2.media_type = m.media_type ∧
      m2.reply_to_msg_id = m.reply_to_msg_id ∧ m2.forwards = m.forwards ∧
      m2.views = m.views ∧ m2.is_deleted = m.is_deleted ∧
      m2.deleted_at = m.deleted_at ∧ m2.first_seen_at = m.first_seen_at ∧
      (m2 = m ∨
        (strTruthy m.media_file = false ∧
          strTruthy d.media_file_path = true ∧
          m2 = backfillMedia now d m)) := by
  unfold syncUpsert
  rw [hm]
  by_cases hcond : (strTruthy d.media_file_path &&
      !strTruthy m.media_file) = true
  · obtain ⟨hp, hneg⟩ := (Bool.and_eq_true _ _).mp hcond
    refine ⟨backfillMedia now d m, ?_, rfl, rfl, rfl, rfl, rfl, rfl, rfl,
      rfl, rfl, rfl, rfl, rfl, rfl, Or.inr ⟨?_, hp, rfl⟩⟩
    · simp only [hcond, if_true]
      rw [findMsg_update, if_pos rfl, hm]
      rfl
    · simpa using hneg
  · have hbf : (strTruthy d.media_file_path &&
        !strTruthy m.media_file) = false := by
      revert hcond
      cases (strTruthy d.media_file_path && !strTruthy m.media_file) <;> simp
    refine ⟨m, ?_, rfl, rfl, rfl, rfl, rfl, rfl, rfl, rfl, rfl, rfl, rfl,
      rfl, rfl, Or.inl rfl⟩
    simp only [hbf]
    simpa using hm

/-- Witness for the amended C6: a stored row with no media re-sighted
with a downloaded file. -/
theorem sync_upsert_never_overwrites_text_witness :
    findMsg [(1, mkRow "keep")] 1 = some (mkRow "keep") ∧
    (∃ m2, findMsg (syncUpsert 6 [(1, mkRow "keep")]
        { mkMsgData 1 with media_file_path := some "p" }).1 1 = some m2 ∧
      m2.text = (mkRow "keep").text ∧ m2.date = (mkRow "keep").date ∧
      m2.sender_id = (mkRow "keep").sender_id ∧
      m2.sender_name = (mkRow "keep").sender_name ∧
      m2.is_outgoing = (mkRow "keep").is_outgoing ∧
      m2.has_media = (mkRow "keep").has_media ∧
      m2.media_type = (mkRow "keep").media_type ∧
      m2.reply_to_msg_id = (mkRow "keep").reply_to_msg_id ∧
      m2.forwards = (mkRow "keep").forwards ∧
      m2.views = (mkRow "keep").views ∧
      m2.is_deleted = (mkRow "keep").is_deleted ∧
      m2.deleted_at = (mkRow "keep").deleted_at ∧
      m2.first_seen_at = (mkRow "keep").first_seen_at ∧
      (m2 = mkRow "keep" ∨
        (strTruthy (mkRow "keep").media_file = false ∧
          strTruthy ({ mkMsgData 1 with
            media_file_path := some "p" } : MsgData).media_file_path = true ∧
          m2 = backfillMedia 6 { mkMsgData 1 with
            media_file_path := some "p" } (mkRow "keep")))) :=
  ⟨by decide,
   sync_upsert_never_overwrites_text 6 [(1, mkRow "keep")]
     { mkMsgData 1 with media_file_path := some "p" } (mkRow "keep")
     (by decide)⟩

/-- If the cancelled status is first observed at the loop-top re-read of
iteration `k` (0-based), the loop equals: run the first `k`
conversations normally, then perform the cancellation exit. -/
theorem syncLoop_cancel_at : ∀ (k : Nat) (chats : List ChatData) (now : Nat)
    (cancelObs : Nat → Bool) (i : Nat) (st : SyncState),
    (∀ j, j < k → cancelObs (i + j) = false) →
    cancelObs (i + k) = true → k < chats.length →
    syncLoop now cancelObs i chats st =
      cancelFinish now ((chats.take k).foldl (syncOneChat now) st) := by
  intro k
  induction k with
  | zero =>
    intro chats now cancelObs i st hlt hk hlen
    cases chats with
    | nil => simp at hlen
    | cons c rest =>
      rw [Nat.add_zero] at hk
      simp [syncLoop, hk]
  | succ n ih =>
    intro chats now cancelObs i st hlt hk hlen
    cases chats with
    | nil => simp at hlen
    | cons c rest =>
      have h0 : cancelObs i = false := by
        simpa using hlt 0 (Nat.succ_pos n)
      have hrec := ih rest now cancelObs (i + 1) (syncOneChat now st c)
        (fun j hj => by
          have h := hlt (j + 1) (Nat.succ_lt_succ hj)
          have he : i + (j + 1) = i + 1 + j := by omega
          rwa [he] at h)
        (by
          have he : i + (n + 1) = i + 1 + n := by omega
          rwa [he] at hk)
        (Nat.lt_of_succ_lt_succ hlen)
      simp only [syncLoop, h0, Bool.false_eq_true, if_false]
      rw [hrec]
      simp [List.take_succ_cons]

/-- C4: if cancellation is observed at the loop-top status re-read after
conversation `k` of `n` completes and before conversation `k+1` starts
(0-based: observed first at iteration index `k`, `k < n`), the worker
returns at that boundary: the final state is exactly the state after
fully processing conversations `1..k` (their upserted messages and
ledger advances committed, conversations `k+1..n` untouched) followed by
the cancellation exit; the final status is `cancelled` (not `failed`)
and `completed_at` is set. -/
theorem cancellation_boundary (now k : Nat) (sstr : String)
    (get_all_chats : String → Except String (List ChatData))
    (cancelObs : Nat → Bool) (st : SyncState) (chats : List ChatData)
    (hchats : get_all_chats sstr = .ok chats)
    (hbefore : ∀ j, j < k → cancelObs j = false)
    (hat : cancelObs k = true) (hlen : k < chats.length) :
    run_background_sync now (.ok sstr) get_all_chats cancelObs st =
      cancelFinish now ((chats.take k).foldl (syncOneChat now)
        { st with task := setupTask now st.task chats.length }) ∧
    (run_background_sync now (.ok sstr) get_all_chats cancelObs
        st).task.status = .cancelled ∧
    (run_background_sync now (.ok sstr) get_all_chats cancelObs
        st).task.completed_at = some now ∧
    (run_background_sync now (.ok sstr) get_all_chats cancelObs
        st).task.status ≠ .failed := by
  have hrun : run_background_sync now (.ok sstr) get_all_chats cancelObs st =
      cancelFinish now ((chats.take k).foldl (syncOneChat now)
        { st with task := setupTask now st.task chats.length }) := by
    simp only [run_background_sync, hchats]
    exact syncLoop_cancel_at k chats now cancelObs 0 _
      (fun j hj => by simpa using hbefore j hj)
      (by simpa using hat) hlen
  refine ⟨hrun, ?_, ?_, ?_⟩ <;> rw [hrun] <;>
    simp [cancelFinish, SyncTask.add_log]

/-- Witness for C4: two conversations, cancellation observed at the
re-read before the second one (k = 1). -/
theorem cancellation_boundary_witness :
    (fun _ : String => (Except.ok
        [mkChatData 1 (some [mkMsgData 5]),
         mkChatData 2 (some [mkMsgData 6])] :
          Except String (List ChatData))) "s" =
      .ok [mkChatData 1 (some [mkMsgData 5]),
           mkChatData 2 (some [mkMsgData 6])] ∧
    (∀ j, j < 1 → decide (1 ≤ j) = false) ∧
    decide (1 ≤ 1) = true ∧
    1 < ([mkChatData 1 (some [mkMsgData 5]),
          mkChatData 2 (some [mkMsgData 6])] : List ChatData).length ∧
    (run_background_sync 9 (.ok "s")
        (fun _ => Except.ok [mkChatData 1 (some [mkMsgData 5]),
          mkChatData 2 (some [mkMsgData 6])])
        (fun i => decide (1 ≤ i)) state0 =
      cancelFinish 9 (([mkChatData 1 (some [mkMsgData 5]),
          mkChatData 2 (some [mkMsgData 6])].take 1).foldl (syncOneChat 9)
        { state0 with task := setupTask 9 state0.task 2 }) ∧
     (run_background_sync 9 (.ok "s")
        (fun _ => Except.ok [mkChatData 1 (some [mkMsgData 5]),
          mkChatData 2 (some [mkMsgData 6])])
        (fun i => decide (1 ≤ i)) state0).task.status = .cancelled ∧
     (run_background_sync 9 (.ok "s")
        (fun _ => Except.ok [mkChatData 1 (some [mkMsgData 5]),
          mkChatData 2 (some [mkMsgData 6])])
        (fun i => decide (1 ≤ i)) state0).task.completed_at = some 9 ∧
     (run_background_sync 9 (.ok "s")
        (fun _ => Except.ok [mkChatData 1 (some [mkMsgData 5]),
          mkChatData 2 (some [mkMsgData 6])])
        (fun i => decide (1 ≤ i)) state0).task.status ≠ .failed) :=
  ⟨rfl,
   fun j hj => by
     have hj0 : j = 0 := Nat.lt_one_iff.mp hj
     subst hj0
     rfl,
   rfl,
   by decide,
   cancellation_boundary 9 1 "s"
     (fun _ => Except.ok [mkChatData 1 (some [mkMsgData 5]),
       mkChatData 2 (some [mkMsgData 6])])
     (fun i => decide (1 ≤ i)) state0
     [mkChatData 1 (some [mkMsgData 5]), mkChatData 2 (some [mkMsgData 6])]
     rfl
     (fun j hj => by
       have hj0 : j = 0 := Nat.lt_one_iff.mp hj
       subst hj0
       rfl)
     rfl (by decide)⟩

/-- The conversation loop always terminates with a terminal status:
`completed` after the last conversation, `cancelled` on a cancellation
exit. -/
theorem syncLoop_status : ∀ (chats : List ChatData) (now : Nat)
    (cancelObs : Nat → Bool) (i : Nat) (st : SyncState),
    (syncLoop now cancelObs i chats st).task.status = .completed ∨
    (syncLoop now cancelObs i chats st).task.status = .cancelled := by
  intro chats
  induction chats with
  | nil =>
    intro now cancelObs i st
    left
    rfl
  | cons c rest ih =>
    intro now cancelObs i st
    simp only [syncLoop]
    by_cases hc : cancelObs i
    · right
      simp [hc, cancelFinish, SyncTask.add_log]
    · simp only [hc, Bool.false_eq_true, if_false]
      exact ih now cancelObs (i + 1) (syncOneChat now st c)

/-- C5: whatever the session-decryption outcome, the remote chat-listing
outcome and the cancellation pattern, the worker never returns with the
task left in `running`; and when the run aborts with an exception
(modelled at the pre-`running` session-decryption step, which lands in
the top-level handler), the task ends `failed` with `error_message` and
`completed_at` set. -/
theorem worker_never_leaves_running (now : Nat)
    (sessionRes : Except String String)
    (get_all_chats : String → Except String (List ChatData))
    (cancelObs : Nat → Bool) (st : SyncState) :
    (run_background_sync now sessionRes get_all_chats cancelObs
        st).task.status ≠ .running ∧
    (∀ e, sessionRes = .error e →
      (run_background_sync now sessionRes get_all_chats cancelObs
          st).task.status = .failed ∧
      (run_background_sync now sessionRes get_all_chats cancelObs
          st).task.error_message = e ∧
      (run_background_sync now sessionRes get_all_chats cancelObs
          st).task.completed_at = some now) := by
  cases sessionRes with
  | error e =>
    refine ⟨?_, ?_⟩
    · simp [run_background_sync, failTask, SyncTask.add_log]
    · intro e2 he
      injection he with he2
      subst he2
      refine ⟨?_, ?_, ?_⟩ <;>
        simp [run_background_sync, failTask, SyncTask.add_log]
  | ok sstr =>
    refine ⟨?_, fun e he => by cases he⟩
    cases hc : get_all_chats sstr with
    | error e =>
      simp [run_background_sync, hc]
    | ok chats =>
      have hrw : run_background_sync now (.ok sstr) get_all_chats cancelObs
          st = syncLoop now cancelObs 0 chats
            { st with task := setupTask now st.task chats.length } := by
        simp only [run_background_sync, hc]
        rfl
      rw [hrw]
      rcases syncLoop_status chats now cancelObs 0
        { st with task := setupTask now st.task chats.length } with h | h <;>
        rw [h] <;> simp

/-- Witness for C5: a run whose session decryption raises `"boom"`. -/
theorem worker_never_leaves_running_witness :
    (run_background_sync 3 (.error "boom") (fun _ => Except.ok [])
        (fun _ => false) state0).task.status ≠ .running ∧
    (run_background_sync 3 (.error "boom") (fun _ => Except.ok [])
        (fun _ => false) state0).task.status = .failed ∧
    (run_background_sync 3 (.error "boom") (fun _ => Except.ok [])
        (fun _ => false) state0).task.error_message = "boom" ∧
    (run_background_sync 3 (.error "boom") (fun _ => Except.ok [])
        (fun _ => false) state0).task.completed_at = some 3 :=
  ⟨(worker_never_leaves_running 3 (.error "boom") (fun _ => Except.ok [])
      (fun _ => false) state0).1,
   (worker_never_leaves_running 3 (.error "boom") (fun _ => Except.ok [])
      (fun _ => false) state0).2 "boom" rfl⟩
